import Mathlib

/-!
Verification of the stale-review-request-notifier repository.

The development shallowly embeds the two source files `src/github_services.py`
and `src/main.py`. Machine-level conventions of the embedding:

* Instants of time are integers (seconds since an arbitrary epoch, UTC).
  `datetime.datetime.now(datetime.timezone.utc)` becomes an explicit `now : Int`
  parameter, and `datetime.timedelta(hours=h)` becomes `h * 3600` seconds.
* Timestamp strings on the wire are modelled as already parsed integers
  (`dateutil.parser.parse` belongs to the transport boundary).
* Fallible Python code returns `Except PyError`; an uncaught Python exception is
  the `.error` case.
* The network is a pure environment: paginated GET endpoints are functions from
  a page number to the page's JSON list, and the GraphQL lookups are fields of a
  `World` structure.  Every outbound request is recorded in a trace of `ApiCall`s.
* Pagination loops terminate in Python only when the environment eventually
  serves an empty page; the embedding makes that explicit with a `fuel` bound on
  the number of pages requested.
* `main.py`'s module `github_domain` is not part of the repository's `src/`
  tree; the definitions translated from it are marked `Modelled from the spec:`
  and follow the spec's words (sections 3, 4.1 and 4.4).

The source interleaves per-page processing with page fetching; the embedding
fetches a listing's pages first and then processes the concatenation.  The two
presentations compute the same results and issue the same requests, because the
per-page processing performs no page requests of the listing being consumed.
-/

/-- An uncaught Python exception, as the embedding observes it. -/
inductive PyError where
  | nameError (name : String)
  | typeError (msg : String)
  | baseException (msg : String)
deriving DecidableEq

/-- One outbound API request of the program, as recorded in the trace. -/
inductive ApiCall where
  | fetchPulls (org repo : String) (page : Nat)
  | fetchTimeline (org repo : String) (number : Int) (page : Nat)
  | getCategoryId (org repo : String)
  | getDiscussionIds (org repo : String)
  | getRepositoryId (org repo : String)
  | deleteDiscussion (id : String)
  | createDiscussion (org repo category title body : String)
deriving DecidableEq

/-- An assignee dictionary of the pull-request wire format (`assignees[].login`);
`created_at` is the key the timeline correlation adds (absent on the wire). -/
structure RawAssignee where
  login : String
  created_at : Option Int
deriving DecidableEq

/-- A pull-request dictionary of the wire format
(`number`, `html_url`, `title`, `user.login`, `assignees`). -/
structure RawPullRequest where
  html_url : String
  number : Int
  title : String
  user_login : String
  assignees : List RawAssignee
deriving DecidableEq

/-- A timeline-event dictionary of the wire format
(`event`, `assignee.login`, `created_at`). -/
structure TimelineEvent where
  event : String
  assignee_login : String
  created_at : Int
deriving DecidableEq

/-- Modelled from the spec: `github_domain.py` is not under `src/`.  Spec section 3:
an Assignee has a username and an assigned-on timestamp that "is present only if
a matching `assigned` timeline event was found". -/
structure Assignee where
  username : String
  assigned_on_timestamp : Option Int
deriving DecidableEq

/-- Modelled from the spec: `github_domain.py` is not under `src/`.  Spec section 3:
a PullRequest has a url, a number, an author username, a title and an ordered
sequence of Assignee. -/
structure PullRequest where
  url : String
  pr_number : Int
  author_username : String
  title : String
  assignees : List Assignee
deriving DecidableEq

/-- Modelled from the spec: `github_domain.py` is not under `src/`.  Spec section 4.1:
`is_reviewer_assigned() -> bool`: true iff the assignee sequence is non-empty. -/
def PullRequest.is_reviewer_assigned (pr : PullRequest) : Bool :=
  !pr.assignees.isEmpty

/-- Modelled from the spec: `github_domain.py` is not under `src/`.  Spec section 4.1:
`get_assignee(username)`: first assignee whose username matches, else absent. -/
def PullRequest.get_assignee (pr : PullRequest) (username : String) : Option Assignee :=
  pr.assignees.find? (fun a => a.username == username)

/-- Modelled from the spec: `github_domain.py` is not under `src/`.  Spec sections 3
and 6: the domain object is built from the wire dictionary after timeline
correlation, each listed assignee carrying its (optional) assigned-on timestamp. -/
def PullRequest.from_github_response (d : RawPullRequest) : PullRequest :=
  { url := d.html_url
    pr_number := d.number
    author_username := d.user_login
    title := d.title
    assignees := d.assignees.map (fun a =>
      { username := a.login, assigned_on_timestamp := a.created_at }) }

/-- Modelled from the spec: `github_domain.py` is not under `src/`.  Spec section 4.4
says a rendered line carries "a waiting-time phrase derived from the elapsed
duration at render time"; the phrase's wording is unspecified, so it is modelled
as a fixed function of the elapsed seconds. -/
def waitingTimePhrase (elapsed : Int) : String :=
  toString (elapsed / 3600) ++ " hours"

/-- Modelled from the spec: `github_domain.py` is not under `src/`.  The waiting
time is recomputed from the current instant at the moment of the call. -/
def Assignee.get_waiting_time (now : Int) (a : Assignee) : String :=
  waitingTimePhrase (now - a.assigned_on_timestamp.getD 0)

/-- The pagination loop shared by `get_prs_assigned_to_reviewers`
(github_services.py lines 110-127) and `get_pull_request_object_from_dict`
(lines 163-185): request page 1, 2, ... with `per_page = 100` until a page comes
back empty; the items of the non-empty pages are concatenated in order.  Returns
the items and the `(page, per_page)` parameters of every request issued.
`fuel` bounds the number of requests (the Python loop is unbounded). -/
def fetchPagesT {α : Type} (api : Nat → List α) : Nat → Nat → List α × List (Nat × Nat)
  | 0, _ => ([], [])
  | fuel + 1, page =>
    let subset := api page
    if subset.isEmpty then ([], [(page, 100)])
    else
      let rest := fetchPagesT api fuel (page + 1)
      (subset ++ rest.1, (page, 100) :: rest.2)

/-- A paginated endpoint serving a fixed list of pages: page `i + 1` serves the
`i`-th list, later pages are empty. -/
def pageApi {α : Type} (ps : List (List α)) (page : Nat) : List α :=
  ps.getD (page - 1) []

/-- Translates `get_pull_request_dict_with_timestamp` (github_services.py lines
193-204): write the event's creation timestamp onto every assignee of the
pull-request dictionary whose login equals the event's assignee login. -/
def get_pull_request_dict_with_timestamp (assignees : List RawAssignee)
    (event : TimelineEvent) : List RawAssignee :=
  assignees.map (fun assignee =>
    if event.assignee_login == assignee.login then
      { assignee with created_at := some event.created_at }
    else assignee)

/-- The timeline-correlation loop of `get_pull_request_object_from_dict`
(github_services.py lines 180-183) applied to the concatenated timeline: events
whose kind is not `"assigned"` are skipped, every `"assigned"` event rewrites
the matching assignees in place.  The boolean records whether the local
`updated_pr_dict` was ever bound, i.e. whether any `"assigned"` event was
processed. -/
def applyTimelineEvents : List RawAssignee → List TimelineEvent → List RawAssignee × Bool
  | assignees, [] => (assignees, false)
  | assignees, e :: es =>
    if e.event == "assigned" then
      ((applyTimelineEvents (get_pull_request_dict_with_timestamp assignees e) es).1, true)
    else applyTimelineEvents assignees es

/-- The last `"assigned"` timeline event for a login, in processing order. -/
def lastAssignedFor (login : String) : List TimelineEvent → Option TimelineEvent
  | [] => none
  | e :: es =>
    match lastAssignedFor login es with
    | some e' => some e'
    | none =>
      if e.event == "assigned" && e.assignee_login == login then some e else none

/-- Translates `get_pull_request_object_from_dict` (github_services.py lines
152-188): fetch the pull request's timeline page by page, correlate the
`"assigned"` events onto the assignee dictionaries, and build the domain object.
When no `"assigned"` event was processed the local variable `updated_pr_dict`
was never bound and the unconditional reference on line 188 raises `NameError`. -/
def get_pull_request_object_from_dict (org_name repo_name : String)
    (timelinePages : Int → Nat → List TimelineEvent) (fuel : Nat)
    (pr_dict : RawPullRequest) : List ApiCall × Except PyError PullRequest :=
  let fetched := fetchPagesT (timelinePages pr_dict.number) fuel 1
  let calls := fetched.2.map (fun p => ApiCall.fetchTimeline org_name repo_name pr_dict.number p.1)
  let corr := applyTimelineEvents pr_dict.assignees fetched.1
  if corr.2 then
    (calls, .ok (PullRequest.from_github_response { pr_dict with assignees := corr.1 }))
  else
    (calls, .error (.nameError "updated_pr_dict"))

/-- The list comprehension of github_services.py lines 129-132: build a
`PullRequest` object for every fetched pull-request dictionary, in order; the
first uncaught exception aborts. -/
def buildPullRequests (org_name repo_name : String)
    (timelinePages : Int → Nat → List TimelineEvent) (fuel : Nat) :
    List RawPullRequest → List ApiCall × Except PyError (List PullRequest)
  | [] => ([], .ok [])
  | d :: rest =>
    match get_pull_request_object_from_dict org_name repo_name timelinePages fuel d with
    | (c, .error e) => (c, .error e)
    | (c, .ok pr) =>
      match buildPullRequests org_name repo_name timelinePages fuel rest with
      | (c', .error e) => (c ++ c', .error e)
      | (c', .ok prs) => (c ++ c', .ok (pr :: prs))

/-- The reviewer-to-pull-requests mapping: a `collections.defaultdict(list)`,
embedded as an association list that preserves key insertion order. -/
abbrev ReviewerMap := List (String × List PullRequest)

/-- `reviewer_to_assigned_prs[key].append(v)` on the defaultdict: append to the
existing key's list, or add the key at the end with a one-element list. -/
def appendToKey (m : ReviewerMap) (k : String) (v : PullRequest) : ReviewerMap :=
  match m with
  | [] => [(k, [v])]
  | (k', vs) :: rest =>
    if k' == k then (k', vs ++ [v]) :: rest else (k', vs) :: appendToKey rest k v

/-- Reading a key of the defaultdict: its list, or `[]` for an absent key. -/
def lookupD (m : ReviewerMap) (k : String) : List PullRequest :=
  match m.find? (fun p => p.1 == k) with
  | some p => p.2
  | none => []

/-- The staleness test of github_services.py lines 138-144 as a boolean: the
assignee counts iff it carries a timestamp, its username differs from the
author's, and `now - timestamp >= h` hours.  (The timestamp-less case follows
the spec, section 4.3: "Skip if the assignee has no recorded assignment
timestamp" — the defining `github_domain` module is not under `src/`.) -/
def overdueB (now h : Int) (pr : PullRequest) (a : Assignee) : Bool :=
  match a.assigned_on_timestamp with
  | none => false
  | some ts => a.username != pr.author_username && decide (h * 3600 ≤ now - ts)

/-- Translates the inner loop of github_services.py lines 137-145 over one pull
request's assignees.  Evaluation order follows the source: the username
comparison short-circuits before `timedelta(hours=max_waiting_time_in_hours)`
is built, so `max_waiting_time_in_hours = None` raises `TypeError` only when a
non-self-assigned, timestamped assignee is reached. -/
def filterOverdueAssignees (now : Int) (mwh : Option Int) (pr : PullRequest) :
    List Assignee → ReviewerMap → Except PyError ReviewerMap
  | [], m => .ok m
  | a :: rest, m =>
    match a.assigned_on_timestamp with
    | none => filterOverdueAssignees now mwh pr rest m
    | some ts =>
      if a.username != pr.author_username then
        match mwh with
        | none => .error (.typeError "unsupported operand type for timedelta hours: NoneType")
        | some h =>
          if h * 3600 ≤ now - ts then
            filterOverdueAssignees now mwh pr rest (appendToKey m a.username pr)
          else
            filterOverdueAssignees now mwh pr rest m
      else filterOverdueAssignees now mwh pr rest m

/-- Translates the outer loop of github_services.py lines 134-145: pull requests
with no assignee are skipped, the others contribute their overdue assignees to
the defaultdict. -/
def filterOverduePulls (now : Int) (mwh : Option Int) :
    List PullRequest → ReviewerMap → Except PyError ReviewerMap
  | [], m => .ok m
  | pr :: rest, m =>
    if pr.is_reviewer_assigned then
      match filterOverdueAssignees now mwh pr pr.assignees m with
      | .error e => .error e
      | .ok m' => filterOverduePulls now mwh rest m'
    else filterOverduePulls now mwh rest m

/-- Translates `get_prs_assigned_to_reviewers` (github_services.py lines
86-146): fetch open pull requests page by page, build the domain objects (each
fetching its timeline), and group the overdue pull requests by reviewer. -/
def get_prs_assigned_to_reviewers (now : Int) (org_name repo_name : String)
    (pullPages : Nat → List RawPullRequest)
    (timelinePages : Int → Nat → List TimelineEvent) (fuel : Nat)
    (max_waiting_time_in_hours : Option Int) :
    List ApiCall × Except PyError ReviewerMap :=
  let fetched := fetchPagesT pullPages fuel 1
  let pullCalls := fetched.2.map (fun p => ApiCall.fetchPulls org_name repo_name p.1)
  match buildPullRequests org_name repo_name timelinePages fuel fetched.1 with
  | (tcalls, .error e) => (pullCalls ++ tcalls, .error e)
  | (tcalls, .ok pulls) =>
    match filterOverduePulls now max_waiting_time_in_hours pulls [] with
    | .error e => (pullCalls ++ tcalls, .error e)
    | .ok m => (pullCalls ++ tcalls, .ok m)

/-- Proof-side restatement of one defaultdict update of the staleness filter:
apply the `overdueB` test and append on success. -/
def overdueStep (now h : Int) (pr : PullRequest) (m : ReviewerMap) (a : Assignee) : ReviewerMap :=
  if overdueB now h pr a then appendToKey m a.username pr else m

/-- Proof-side restatement of one pull request's pass through the staleness
filter: fold `overdueStep` over its assignees. -/
def overduePullStep (now h : Int) (m : ReviewerMap) (pr : PullRequest) : ReviewerMap :=
  pr.assignees.foldl (overdueStep now h pr) m

/-- The copies of `pr` that the staleness filter appends under reviewer key `u`:
one per assignee of `pr` with username `u` passing the `overdueB` test. -/
def overdueContrib (now h : Int) (u : String) (pr : PullRequest) : List PullRequest :=
  (pr.assignees.filter (fun a => a.username == u && overdueB now h pr a)).map (fun _ => pr)

/-- Python's str() of an optional string, as an f-string interpolates it. -/
def optStr : Option String → String
  | none => "None"
  | some s => s

/-- Translates `_get_category_id` (github_services.py lines 244-294): scan the
repository's discussion-category nodes `(id, name)` in list order, break at the
first whose name equals the configured category, and raise naming the category
when none matches. -/
def _get_category_id (org_name repo_name : String)
    (categories : List (String × String)) (discussion_category : Option String) :
    List ApiCall × Except PyError String :=
  match categories.find? (fun c => some c.2 == discussion_category) with
  | some c => ([ApiCall.getCategoryId org_name repo_name], .ok c.1)
  | none =>
    ([ApiCall.getCategoryId org_name repo_name],
     .error (.baseException (optStr discussion_category ++
       " category is missing in GitHub Discussion.")))

/-- Translates `_get_repository_id` (github_services.py lines 207-241): a
missing repository makes the GraphQL `repository` field null, so subscripting
`data['data']['repository']['id']` raises `TypeError` (the explicit None check
on line 237 is unreachable). -/
def _get_repository_id (org_name repo_name : String) (repositoryId : Option String) :
    List ApiCall × Except PyError String :=
  match repositoryId with
  | some rid => ([ApiCall.getRepositoryId org_name repo_name], .ok rid)
  | none =>
    ([ApiCall.getRepositoryId org_name repo_name],
     .error (.typeError "NoneType object is not subscriptable"))

/-- Translates `_get_discussion_ids` (github_services.py lines 299-352): resolve
the category id, list the category's discussions, and keep the non-null ids. -/
def _get_discussion_ids (org_name repo_name : String)
    (categories : List (String × String)) (discussions : List (Option String))
    (discussion_category : Option String) : List ApiCall × Except PyError (List String) :=
  match _get_category_id org_name repo_name categories discussion_category with
  | (c1, .error e) => (c1, .error e)
  | (c1, .ok _) =>
    (c1 ++ [ApiCall.getDiscussionIds org_name repo_name], .ok (discussions.filterMap id))

/-- Translates `delete_discussions` (github_services.py lines 382-393): delete
every discussion of the category, one mutation per id. -/
def delete_discussions (org_name repo_name : String)
    (categories : List (String × String)) (discussions : List (Option String))
    (discussion_category : Option String) : List ApiCall × Except PyError Unit :=
  match _get_discussion_ids org_name repo_name categories discussions discussion_category with
  | (c, .error e) => (c, .error e)
  | (c, .ok ids) => (c ++ ids.map ApiCall.deleteDiscussion, .ok ())

/-- Translates `create_discussion` (github_services.py lines 396-431): resolve
the category id and the repository id, then post the creation mutation. -/
def create_discussion (org_name repo_name : String)
    (categories : List (String × String)) (repositoryId : Option String)
    (discussion_category : Option String) (discussion_title discussion_body : String) :
    List ApiCall × Except PyError Unit :=
  match _get_category_id org_name repo_name categories discussion_category with
  | (c1, .error e) => (c1, .error e)
  | (c1, .ok _) =>
    match _get_repository_id org_name repo_name repositoryId with
    | (c2, .error e) => (c1 ++ c2, .error e)
    | (c2, .ok _) =>
      (c1 ++ c2 ++ [ApiCall.createDiscussion org_name repo_name
        (optStr discussion_category) discussion_title discussion_body], .ok ())

/-- Skip leading spaces, as the regex piece " *" consumes them. -/
def dropSpaces : List Char → List Char
  | [] => []
  | c :: cs => if c == ' ' then dropSpaces cs else c :: cs

/-- Match the regex "\x7b\x7b *name *\x7d\x7d" after its two opening braces;
returns the remainder after the match. -/
def matchTokenTail (name : List Char) (rest : List Char) : Option (List Char) :=
  if (dropSpaces rest).take name.length = name then
    match dropSpaces ((dropSpaces rest).drop name.length) with
    | d1 :: d2 :: r3 => if d1 == '\x7d' && d2 == '\x7d' then some r3 else none
    | _ => none
  else none

/-- Match the regex "\x7b\x7b *name *\x7d\x7d" at the start of the input. -/
def matchToken (name : List Char) : List Char → Option (List Char)
  | c1 :: c2 :: rest =>
    if c1 == '\x7b' && c2 == '\x7b' then matchTokenTail name rest else none
  | _ => none

/-- `re.sub` with the fixed pattern "\x7b\x7b *name *\x7d\x7d" and a literal
replacement: scan left to right, replace each non-overlapping match, and never
rescan the replacement text. -/
def replaceTokenAux (name repl : List Char) : List Char → List Char
  | [] => []
  | c :: cs =>
    match h : matchToken name (c :: cs) with
    | some rest => repl ++ replaceTokenAux name repl rest
    | none => c :: replaceTokenAux name repl cs
termination_by s => s.length
decreasing_by
  · have hds : ∀ l : List Char, (dropSpaces l).length ≤ l.length := by
      intro l
      induction l with
      | nil => simp [dropSpaces]
      | cons d ds ih =>
        simp only [dropSpaces]
        split
        · exact Nat.le_succ_of_le ih
        · simp
    have htail : ∀ nm r r3 : List Char, matchTokenTail nm r = some r3 →
        r3.length ≤ r.length := by
      intro nm r r3 ht
      unfold matchTokenTail at ht
      split at ht
      · split at ht
        · rename_i d1 d2 r3' heq
          split at ht
          · cases ht
            have h1 : (dropSpaces ((dropSpaces r).drop nm.length)).length =
                r3.length + 2 := by rw [heq]; simp
            have h2 := hds ((dropSpaces r).drop nm.length)
            have h3 : ((dropSpaces r).drop nm.length).length ≤ (dropSpaces r).length := by
              rw [List.length_drop]; omega
            have h4 := hds r
            omega
          · exact absurd ht (by simp)
        · exact absurd ht (by simp)
      · exact absurd ht (by simp)
    unfold matchToken at h
    split at h
    · rename_i tail heq
      split at h
      · have hlen : (c :: cs).length = tail.length + 2 := by rw [heq]; simp
        have := htail name tail _ h
        simp only [List.length_cons] at hlen ⊢
        omega
      · exact absurd h (by simp)
    · exact absurd h (by simp)
  · simp

/-- `re.sub(r'\x7b\x7b *name *\x7d\x7d', repl, s)` for a literal replacement, on
Lean strings. -/
def replaceToken (name repl s : String) : String :=
  ⟨replaceTokenAux name.data repl.data s.data⟩

/-- A run of spaces, as the regex piece " *" can match. -/
def mkSpaces (n : Nat) : String := ⟨List.replicate n ' '⟩

/-- A placeholder occurrence: the token name between double braces, with any
amounts of surrounding whitespace inside the markers. -/
def tokenStr (name : String) (n1 n2 : Nat) : String :=
  "\x7b\x7b" ++ mkSpaces n1 ++ name ++ mkSpaces n2 ++ "\x7d\x7d"

/-- The configured template path (main.py line 58). -/
def TEMPLATE_PATH : String := ".github/PENDING_REVIEW_NOTIFICATION_TEMPLATE.md"

/-- One rendered pull-request line of `generate_message` (main.py lines 86-88). -/
def prLine (now : Int) (pr : PullRequest) (a : Assignee) : String :=
  "- [#" ++ toString pr.pr_number ++ "](" ++ pr.url ++ ") [Waiting for the last " ++
    a.get_waiting_time now ++ "]"

/-- Translates `generate_message` (main.py lines 61-100): collect one line per
pull request on which `username` is an assignee, fail when the template file is
absent (`template = none`), and substitute the two placeholder tokens. -/
def generate_message (now : Int) (username : String) (pull_requests : List PullRequest)
    (template_path : String) (template : Option String) : Except PyError String :=
  let pr_list_messages : List String := pull_requests.foldl (fun acc pull_request =>
    match pull_request.get_assignee username with
    | some assignee => acc ++ [prLine now pull_request assignee]
    | none => acc) []
  match template with
  | none => .error (.baseException ("Please add a template file at: " ++ template_path))
  | some message =>
    let message := replaceToken "username" username message
    let message := replaceToken "pr_list" (String.intercalate "\n" pr_list_messages) message
    .ok message

/-- The parsed command-line arguments (main.py lines 30-56): every value is
optional, a flag an argparse user may omit. -/
structure ParsedArgs where
  token : Option String
  repo : Option String
  category : Option String
  title : Option String
  max_wait_hours : Option Int
  verbose : Bool

/-- Translates `init_service` (github_services.py lines 40-54): a missing or
empty token is fatal. -/
def init_service (token : Option String) : Except PyError Unit :=
  match token with
  | none => .error (.baseException "Must provide a valid GitHub Personal Access Token.")
  | some t =>
    if t == "" then .error (.baseException "Must provide a valid GitHub Personal Access Token.")
    else .ok ()

/-- The list `required_args` of main.py line 120: the argument NAME strings. -/
def required_args : List (Option String) := [some "max_wait_hours", some "discussion_category"]

/-- Translates the required-argument check of main.py lines 119-123.  The source
iterates over the argument-name strings and tests the loop variable itself
(`if arg is None`), never the parsed values, so no iteration can raise. -/
def requiredArgMissingError (_parsed_args : ParsedArgs) : Option PyError :=
  required_args.findSome? fun arg =>
    if arg == none then
      some (PyError.baseException ("Please provide " ++ optStr arg ++ " argument."))
    else none

/-- The external environment of one run: the API's answers, the file system's
template, the current instant, and the page bound standing for the API
eventually serving an empty page. -/
structure World where
  now : Int
  pullPages : Nat → List RawPullRequest
  timelinePages : Int → Nat → List TimelineEvent
  categories : List (String × String)
  discussions : List (Option String)
  repositoryId : Option String
  template : Option String
  fuel : Nat

/-- The creation loop of main.py lines 140-144: for each reviewer, render the
message (reading the template) and create the discussion in the hard-coded
notification repository. -/
def createLoop (w : World) (cat : Option String) :
    List (String × List PullRequest) → List ApiCall × Except PyError Unit
  | [] => ([], .ok ())
  | (reviewer_name, pr_list) :: rest =>
    match generate_message w.now reviewer_name pr_list TEMPLATE_PATH w.template with
    | .error e => ([], .error e)
    | .ok body =>
      match create_discussion "SD-13" "test-pending-review-notifier" w.categories
          w.repositoryId cat ("Pending Reviews: @" ++ reviewer_name) body with
      | (c, .error e) => (c, .error e)
      | (c, .ok _) =>
        let rest' := createLoop w cat rest
        (c ++ rest'.1, rest'.2)

/-- Translates `main` (main.py lines 102-144): the dead required-argument check,
service initialisation, the pull-request fetch against the hard-coded
"oppia"/"oppia" (line 113 commented out, lines 114-115), the discussion wipe and
re-creation against the hard-coded "SD-13"/"test-pending-review-notifier"
(lines 135-144).  Returns the trace of API calls next to the outcome. -/
def main_workflow (w : World) (parsed_args : ParsedArgs) : List ApiCall × Except PyError Unit :=
  match requiredArgMissingError parsed_args with
  | some e => ([], .error e)
  | none =>
    match init_service parsed_args.token with
    | .error e => ([], .error e)
    | .ok _ =>
      match get_prs_assigned_to_reviewers w.now "oppia" "oppia" w.pullPages
          w.timelinePages w.fuel parsed_args.max_wait_hours with
      | (c1, .error e) => (c1, .error e)
      | (c1, .ok reviewer_to_assigned_prs) =>
        match delete_discussions "SD-13" "test-pending-review-notifier" w.categories
            w.discussions parsed_args.category with
        | (c2, .error e) => (c1 ++ c2, .error e)
        | (c2, .ok _) =>
          let c3 := createLoop w parsed_args.category reviewer_to_assigned_prs
          (c1 ++ c2 ++ c3.1, c3.2)

/-! Concrete fixtures used by the closed witness theorems. -/

/-- Fixture: an assignee assigned at instant 0. -/
def aW : Assignee := { username := "reviewerName1", assigned_on_timestamp := some 0 }

/-- Fixture: a pull request with one assignee, `aW`. -/
def prW : PullRequest :=
  { url := "https://githuburl.pull/123", pr_number := 123,
    author_username := "authorName", title := "PR title 1", assignees := [aW] }

/-- Fixture: a raw pull request whose second assignee never gets an
"assigned" event. -/
def rawPrW : RawPullRequest :=
  { html_url := "https://githuburl.pull/123", number := 123, title := "PR title 1",
    user_login := "authorName",
    assignees := [{ login := "reviewerName1", created_at := none },
                  { login := "reviewerName2", created_at := none }] }

/-- Fixture: a one-page timeline assigning only reviewerName1. -/
def timelineW : Int → Nat → List TimelineEvent := fun _ page =>
  if page = 1 then
    [{ event := "created", assignee_login := "", created_at := 5 },
     { event := "assigned", assignee_login := "reviewerName1", created_at := 10 }]
  else []

/-- Fixture: the domain object `timelineW` and `rawPrW` produce. -/
def prW2 : PullRequest :=
  { url := "https://githuburl.pull/123", pr_number := 123,
    author_username := "authorName", title := "PR title 1",
    assignees := [{ username := "reviewerName1", assigned_on_timestamp := some 10 },
                  { username := "reviewerName2", assigned_on_timestamp := none }] }

/-- Which repository each kind of API call targets in `main_workflow`:
listing fetches go to the hard-coded "oppia"/"oppia", discussion operations to
the hard-coded "SD-13"/"test-pending-review-notifier" (a deletion mutation
carries only the discussion's GraphQL id). -/
def callTargets (call : ApiCall) : Bool :=
  match call with
  | .fetchPulls o r _ => o == "oppia" && r == "oppia"
  | .fetchTimeline o r _ _ => o == "oppia" && r == "oppia"
  | .getCategoryId o r => o == "SD-13" && r == "test-pending-review-notifier"
  | .getDiscussionIds o r => o == "SD-13" && r == "test-pending-review-notifier"
  | .getRepositoryId o r => o == "SD-13" && r == "test-pending-review-notifier"
  | .deleteDiscussion _ => true
  | .createDiscussion o r _ _ _ => o == "SD-13" && r == "test-pending-review-notifier"

/-- Fixture: a raw pull request with one assignee "rev". -/
def rawPr6 : RawPullRequest :=
  { html_url := "u1", number := 123, title := "T", user_login := "author",
    assignees := [{ login := "rev", created_at := none }] }

/-- Fixture: fully supplied command-line arguments. -/
def args6 : ParsedArgs :=
  { token := some "tok", repo := some "orgName/repo", category := some "cat",
    title := some "title", max_wait_hours := some 20, verbose := false }

/-- Fixture: a world with one overdue pull request, one existing discussion,
and a MISSING template file. -/
def w6 : World :=
  { now := 1000000
    pullPages := fun page => if page = 1 then [rawPr6] else []
    timelinePages := fun _ page => if page = 1 then
        [{ event := "assigned", assignee_login := "rev", created_at := 0 }] else []
    categories := [("cid", "cat")]
    discussions := [some "d1"]
    repositoryId := some "rid"
    template := none
    fuel := 2 }

/-- Fixture: the domain object built in world `w6`. -/
def pr6 : PullRequest :=
  { url := "u1", pr_number := 123, author_username := "author", title := "T",
    assignees := [{ username := "rev", assigned_on_timestamp := some 0 }] }

/-- Fixture: the reviewer map computed in world `w6`. -/
def m6 : ReviewerMap := [("rev", [pr6])]

/-- Fixture: the pull-request-fetch trace of world `w6`. -/
def c1W : List ApiCall :=
  [.fetchPulls "oppia" "oppia" 1, .fetchPulls "oppia" "oppia" 2,
   .fetchTimeline "oppia" "oppia" 123 1, .fetchTimeline "oppia" "oppia" 123 2]

/-- Fixture: the discussion-wipe trace of world `w6`. -/
def c2W : List ApiCall :=
  [.getCategoryId "SD-13" "test-pending-review-notifier",
   .getDiscussionIds "SD-13" "test-pending-review-notifier",
   .deleteDiscussion "d1"]

/-- Fixture: arguments MISSING the required --category and --max-wait-hours. -/
def args7 : ParsedArgs :=
  { token := some "tok", repo := some "orgName/repo", category := none,
    title := none, max_wait_hours := none, verbose := false }

/-- Fixture: a world with no open pull requests. -/
def w7 : World :=
  { now := 0
    pullPages := fun _ => []
    timelinePages := fun _ _ => []
    categories := [("cid", "cat")]
    discussions := []
    repositoryId := some "rid"
    template := some "body"
    fuel := 1 }

/-! ## Pagination -/

theorem fetchPagesT_succ {α : Type} (api : Nat → List α) (fuel page : Nat) :
    fetchPagesT api (fuel + 1) page =
      if (api page).isEmpty then ([], [(page, 100)])
      else ((api page) ++ (fetchPagesT api fuel (page + 1)).1,
            (page, 100) :: (fetchPagesT api fuel (page + 1)).2) := rfl

theorem rangePairs (n s : Nat) :
    (List.range (n + 1)).map (fun i => (s + i, 100)) =
      (s, 100) :: (List.range n).map (fun i => (s + 1 + i, 100)) := by
  rw [List.range_succ_eq_map]
  simp only [List.map_cons, List.map_map, Nat.add_zero]
  refine congrArg (List.cons _) ?_
  refine List.map_congr_left ?_
  intro i _
  simp [Function.comp, Nat.succ_eq_add_one, Nat.add_assoc, Nat.add_comm 1 i]

theorem fetchPagesT_pages {α : Type} (ps : List (List α)) (api : Nat → List α) :
    ∀ start : Nat, (∀ p ∈ ps, p ≠ []) →
    (∀ i, i < ps.length → api (start + i) = ps.getD i []) →
    api (start + ps.length) = [] →
    fetchPagesT api (ps.length + 1) start =
      (ps.flatten, (List.range (ps.length + 1)).map (fun i => (start + i, 100))) := by
  induction ps with
  | nil =>
    intro start _ _ hend
    simp only [List.length_nil, Nat.add_zero] at hend
    simp only [List.length_nil, Nat.zero_add]
    rw [fetchPagesT_succ, hend]
    rw [show List.range 1 = [0] from rfl]
    simp
  | cons p ps ih =>
    intro start hne hap hend
    have hp0 : api start = p := by
      have := hap 0 (by simp)
      simpa using this
    have hpne : p.isEmpty = false := by
      cases p with
      | nil => exact absurd rfl (hne [] (by simp))
      | cons x xs => rfl
    have hrec := ih (start + 1) (fun q hq => hne q (by simp [hq]))
      (fun i hi => by
        have := hap (i + 1) (by simp; omega)
        simpa [Nat.add_assoc, Nat.add_comm 1 i] using this)
      (by
        have he : start + 1 + ps.length = start + (ps.length + 1) := by omega
        rw [he]
        simpa using hend)
    simp only [List.length_cons]
    rw [fetchPagesT_succ, hp0, hpne, hrec]
    rw [rangePairs (ps.length + 1) start]
    simp

/-- C5: every paginated listing fetch requests pages of size 100 one at a time
in ascending order starting at page 1, stops at the first empty page (which
contributes nothing), and concatenates every item of every non-empty page
exactly once. -/
theorem claim_C5_pagination {α : Type} (ps : List (List α)) (hne : ∀ p ∈ ps, p ≠ []) :
    fetchPagesT (pageApi ps) (ps.length + 1) 1 =
      (ps.flatten, (List.range (ps.length + 1)).map (fun i => (i + 1, 100))) := by
  have h := fetchPagesT_pages ps (pageApi ps) 1 hne
    (fun i _ => by simp [pageApi, Nat.add_comm 1 i])
    (by
      simp only [pageApi]
      refine List.getD_eq_default _ _ ?_
      omega)
  rw [h]
  refine congrArg (Prod.mk _) ?_
  refine List.map_congr_left ?_
  intro i _
  simp [Nat.add_comm 1 i]

theorem claim_C5_witness :
    fetchPagesT (pageApi [[1, 2], [3]]) 3 1 = ([1, 2, 3], [(1, 100), (2, 100), (3, 100)]) := by
  have h := claim_C5_pagination (α := Nat) [[1, 2], [3]] (by decide)
  simpa using h

/-! ## Timeline correlation -/

theorem applyTimelineEvents_cons (assignees : List RawAssignee) (e : TimelineEvent)
    (es : List TimelineEvent) :
    applyTimelineEvents assignees (e :: es) =
      if e.event == "assigned" then
        ((applyTimelineEvents (get_pull_request_dict_with_timestamp assignees e) es).1, true)
      else applyTimelineEvents assignees es := rfl

theorem lastAssignedFor_cons (login : String) (e : TimelineEvent) (es : List TimelineEvent) :
    lastAssignedFor login (e :: es) =
      match lastAssignedFor login es with
      | some e' => some e'
      | none =>
        if e.event == "assigned" && e.assignee_login == login then some e else none := rfl

theorem applyTimelineEvents_fst (events : List TimelineEvent) :
    ∀ assignees : List RawAssignee,
    (applyTimelineEvents assignees events).1 = assignees.map (fun a =>
      match lastAssignedFor a.login events with
      | none => a
      | some e => { a with created_at := some e.created_at }) := by
  induction events with
  | nil =>
    intro assignees
    simp [applyTimelineEvents, lastAssignedFor]
  | cons e es ih =>
    intro assignees
    by_cases hev : (e.event == "assigned") = true
    · rw [applyTimelineEvents_cons, if_pos hev]
      show (applyTimelineEvents (get_pull_request_dict_with_timestamp assignees e) es).1 = _
      rw [ih]
      unfold get_pull_request_dict_with_timestamp
      rw [List.map_map]
      refine List.map_congr_left ?_
      intro a _
      simp only [Function.comp]
      by_cases hm : (e.assignee_login == a.login) = true
      · rw [if_pos hm]
        cases hl : lastAssignedFor a.login es with
        | none => simp [lastAssignedFor_cons, hl, hev, hm]
        | some e' => simp [lastAssignedFor_cons, hl]
      · rw [if_neg hm]
        cases hl : lastAssignedFor a.login es with
        | none => simp [lastAssignedFor_cons, hl, hev, hm]
        | some e' => simp [lastAssignedFor_cons, hl]
    · rw [applyTimelineEvents_cons, if_neg hev]
      rw [ih]
      refine List.map_congr_left ?_
      intro a _
      cases hl : lastAssignedFor a.login es with
      | none =>
        have hev' : (e.event == "assigned") = false := by
          cases hb : (e.event == "assigned") with
          | false => rfl
          | true => exact absurd hb hev
        simp [lastAssignedFor_cons, hl, hev']
      | some e' => simp [lastAssignedFor_cons, hl]

theorem applyTimelineEvents_snd (events : List TimelineEvent) :
    ∀ assignees : List RawAssignee,
    (applyTimelineEvents assignees events).2 =
      events.any (fun e => e.event == "assigned") := by
  induction events with
  | nil => intro assignees; simp [applyTimelineEvents]
  | cons e es ih =>
    intro assignees
    by_cases hev : (e.event == "assigned") = true
    · rw [applyTimelineEvents_cons, if_pos hev]
      simp [hev]
    · rw [applyTimelineEvents_cons, if_neg hev]
      have hev' : (e.event == "assigned") = false := by
        cases hb : (e.event == "assigned") with
        | false => rfl
        | true => exact absurd hb hev
      simp [hev', ih]

theorem lastAssignedFor_filter (login : String) (events : List TimelineEvent) :
    lastAssignedFor login (events.filter (fun e => e.event == "assigned")) =
      lastAssignedFor login events := by
  induction events with
  | nil => rfl
  | cons e es ih =>
    by_cases hev : (e.event == "assigned") = true
    · rw [List.filter_cons, if_pos hev, lastAssignedFor_cons, lastAssignedFor_cons, ih]
    · rw [List.filter_cons, if_neg hev, ih, lastAssignedFor_cons]
      have hev' : (e.event == "assigned") = false := by
        cases hb : (e.event == "assigned") with
        | false => rfl
        | true => exact absurd hb hev
      cases hl : lastAssignedFor login es with
      | none => simp [hev']
      | some e' => simp

/-- C3: in timeline correlation, events whose kind is not "assigned" are
ignored, and when several "assigned" events match the same login across the
concatenated pages (processed in ascending page order), the recorded timestamp
is that of the last-processed matching event: each assignee's final
`created_at` is the `created_at` of the final "assigned" event for its login in
processing order (`lastAssignedFor`), and filtering out the non-"assigned"
events does not change the result. -/
theorem claim_C3_last_write_wins (assignees : List RawAssignee) (events : List TimelineEvent) :
    (applyTimelineEvents assignees events).1 = assignees.map (fun a =>
      match lastAssignedFor a.login events with
      | none => a
      | some e => { a with created_at := some e.created_at }) ∧
    (applyTimelineEvents assignees events).1 =
      (applyTimelineEvents assignees (events.filter (fun e => e.event == "assigned"))).1 := by
  refine ⟨applyTimelineEvents_fst events assignees, ?_⟩
  rw [applyTimelineEvents_fst, applyTimelineEvents_fst]
  refine List.map_congr_left ?_
  intro a _
  rw [lastAssignedFor_filter]

/-- C4: a pull request whose fetched timeline holds no "assigned" event (in
particular an empty first page) never binds `updated_pr_dict`, so
`get_pull_request_object_from_dict` raises `NameError` and constructs no
`PullRequest`. -/
theorem claim_C4_nameerror_without_assigned_event (org repo : String)
    (timelinePages : Int → Nat → List TimelineEvent) (fuel : Nat)
    (pr_dict : RawPullRequest)
    (hnone : ∀ e ∈ (fetchPagesT (timelinePages pr_dict.number) fuel 1).1,
      e.event ≠ "assigned") :
    (get_pull_request_object_from_dict org repo timelinePages fuel pr_dict).2 =
      .error (.nameError "updated_pr_dict") := by
  have hb : (applyTimelineEvents pr_dict.assignees
      (fetchPagesT (timelinePages pr_dict.number) fuel 1).1).2 = false := by
    rw [applyTimelineEvents_snd]
    rw [List.any_eq_false]
    intro e he
    simpa using hnone e he
  simp only [get_pull_request_object_from_dict]
  simp [hb]

/-! ## Staleness filter -/

theorem lookupD_cons (a : String) (b : List PullRequest) (rest : ReviewerMap) (u : String) :
    lookupD ((a, b) :: rest) u = if (a == u) = true then b else lookupD rest u := by
  by_cases hz : (a == u) = true
  · have hf : List.find? (fun p => p.1 == u) ((a, b) :: rest) = some (a, b) :=
      List.find?_cons_of_pos _ (by simpa using hz)
    simp [lookupD, hf, hz]
  · have hf : List.find? (fun p => p.1 == u) ((a, b) :: rest) =
        List.find? (fun p => p.1 == u) rest :=
      List.find?_cons_of_neg _ (by simpa using hz)
    simp [lookupD, hf, hz]

theorem lookupD_appendToKey (m : ReviewerMap) (k u : String) (v : PullRequest) :
    lookupD (appendToKey m k v) u =
      if u = k then lookupD m u ++ [v] else lookupD m u := by
  induction m with
  | nil =>
    by_cases h : u = k
    · subst h
      simp [appendToKey, lookupD_cons, lookupD]
    · have hk : (k == u) = false := by
        refine beq_eq_false_iff_ne.mpr ?_
        exact fun e => h e.symm
      simp [appendToKey, lookupD_cons, hk, lookupD, h]
  | cons p rest ih =>
    obtain ⟨k', vs⟩ := p
    by_cases hk : (k' == k) = true
    · have hkk : k' = k := by simpa using hk
      subst hkk
      rw [show appendToKey ((k', vs) :: rest) k' v = (k', vs ++ [v]) :: rest from by
        simp [appendToKey]]
      rw [lookupD_cons, lookupD_cons]
      by_cases hu : (k' == u) = true
      · have hueq : u = k' := by
          have : k' = u := by simpa using hu
          exact this.symm
        simp [hu, hueq]
      · have hne : ¬ (u = k') := fun e => hu (by simp [e])
        simp [hu, hne]
    · have hkk : k' ≠ k := by simpa using hk
      rw [show appendToKey ((k', vs) :: rest) k v = (k', vs) :: appendToKey rest k v from by
        simp [appendToKey, hkk]]
      rw [lookupD_cons, lookupD_cons, ih]
      by_cases hu : (k' == u) = true
      · have huk : ¬ (u = k) := by
          have hku : k' = u := by simpa using hu
          subst hku
          exact fun e => hkk e
        simp [hu, huk]
      · simp [hu]

theorem filterOverdueAssignees_cons (now : Int) (mwh : Option Int) (pr : PullRequest)
    (a : Assignee) (rest : List Assignee) (m : ReviewerMap) :
    filterOverdueAssignees now mwh pr (a :: rest) m =
      match a.assigned_on_timestamp with
      | none => filterOverdueAssignees now mwh pr rest m
      | some ts =>
        if a.username != pr.author_username then
          match mwh with
          | none => .error (.typeError "unsupported operand type for timedelta hours: NoneType")
          | some h =>
            if h * 3600 ≤ now - ts then
              filterOverdueAssignees now mwh pr rest (appendToKey m a.username pr)
            else filterOverdueAssignees now mwh pr rest m
        else filterOverdueAssignees now mwh pr rest m := rfl

theorem filterOverdueAssignees_cons_none (now : Int) (mwh : Option Int) (pr : PullRequest)
    (a : Assignee) (rest : List Assignee) (m : ReviewerMap)
    (hts : a.assigned_on_timestamp = none) :
    filterOverdueAssignees now mwh pr (a :: rest) m =
      filterOverdueAssignees now mwh pr rest m := by
  rw [filterOverdueAssignees_cons, hts]

theorem filterOverdueAssignees_cons_some (now h : Int) (pr : PullRequest)
    (a : Assignee) (rest : List Assignee) (m : ReviewerMap) (ts : Int)
    (hts : a.assigned_on_timestamp = some ts) :
    filterOverdueAssignees now (some h) pr (a :: rest) m =
      if a.username != pr.author_username then
        (if h * 3600 ≤ now - ts then
          filterOverdueAssignees now (some h) pr rest (appendToKey m a.username pr)
        else filterOverdueAssignees now (some h) pr rest m)
      else filterOverdueAssignees now (some h) pr rest m := by
  rw [filterOverdueAssignees_cons, hts]

theorem filterOverdueAssignees_ok (now h : Int) (pr : PullRequest) :
    ∀ (as' : List Assignee) (m : ReviewerMap),
    filterOverdueAssignees now (some h) pr as' m =
      .ok (as'.foldl (overdueStep now h pr) m) := by
  intro as'
  induction as' with
  | nil => intro m; rfl
  | cons a rest ih =>
    intro m
    rw [List.foldl_cons]
    cases hts : a.assigned_on_timestamp with
    | none =>
      rw [filterOverdueAssignees_cons_none now _ pr a rest m hts, ih]
      have : overdueStep now h pr m a = m := by simp [overdueStep, overdueB, hts]
      rw [this]
    | some ts =>
      rw [filterOverdueAssignees_cons_some now h pr a rest m ts hts]
      by_cases hu : (a.username != pr.author_username) = true
      · rw [if_pos hu]
        by_cases hle : h * 3600 ≤ now - ts
        · rw [if_pos hle, ih]
          have : overdueStep now h pr m a = appendToKey m a.username pr := by
            simp [overdueStep, overdueB, hts, hu, hle]
          rw [this]
        · rw [if_neg hle, ih]
          have : overdueStep now h pr m a = m := by
            simp [overdueStep, overdueB, hts, hu, hle]
          rw [this]
      · rw [if_neg hu, ih]
        have : overdueStep now h pr m a = m := by
          have hub : (a.username != pr.author_username) = false := by
            cases hb : (a.username != pr.author_username) with
            | false => rfl
            | true => exact absurd hb hu
          simp [overdueStep, overdueB, hts, hub]
        rw [this]

theorem filterOverduePulls_cons (now : Int) (mwh : Option Int) (pr : PullRequest)
    (rest : List PullRequest) (m : ReviewerMap) :
    filterOverduePulls now mwh (pr :: rest) m =
      if pr.is_reviewer_assigned then
        match filterOverdueAssignees now mwh pr pr.assignees m with
        | .error e => .error e
        | .ok m' => filterOverduePulls now mwh rest m'
      else filterOverduePulls now mwh rest m := rfl

theorem filterOverduePulls_ok (now h : Int) :
    ∀ (prs : List PullRequest) (m : ReviewerMap),
    filterOverduePulls now (some h) prs m = .ok (prs.foldl (overduePullStep now h) m) := by
  intro prs
  induction prs with
  | nil => intro m; rfl
  | cons pr rest ih =>
    intro m
    rw [List.foldl_cons, filterOverduePulls_cons]
    by_cases hr : pr.is_reviewer_assigned = true
    · rw [if_pos hr, filterOverdueAssignees_ok]
      show filterOverduePulls now (some h) rest (pr.assignees.foldl (overdueStep now h pr) m) = _
      rw [ih]
      rfl
    · rw [if_neg hr, ih]
      have hempty : pr.assignees = [] := by
        have : pr.assignees.isEmpty = true := by
          cases hb : pr.assignees.isEmpty with
          | true => rfl
          | false => exact absurd (by simp [PullRequest.is_reviewer_assigned, hb]) hr
        simpa [List.isEmpty_iff] using this
      simp [overduePullStep, hempty]

theorem lookupD_foldl_overdueStep (now h : Int) (pr : PullRequest) (u : String) :
    ∀ (as' : List Assignee) (m : ReviewerMap),
    lookupD (as'.foldl (overdueStep now h pr) m) u =
      lookupD m u ++
        ((as'.filter (fun a => a.username == u && overdueB now h pr a)).map (fun _ => pr)) := by
  intro as'
  induction as' with
  | nil => intro m; simp
  | cons a rest ih =>
    intro m
    rw [List.foldl_cons, ih]
    by_cases hov : overdueB now h pr a = true
    · have h1 : overdueStep now h pr m a = appendToKey m a.username pr := by
        simp [overdueStep, hov]
      by_cases hu : (a.username == u) = true
      · have hueq : u = a.username := by
          have : a.username = u := by simpa using hu
          exact this.symm
        rw [h1, lookupD_appendToKey, if_pos hueq, List.filter_cons,
          if_pos (by simp [hu, hov])]
        simp
      · have hune : ¬ (u = a.username) := fun e => hu (by simp [e])
        rw [h1, lookupD_appendToKey, if_neg hune, List.filter_cons,
          if_neg (by simp [hu])]
    · have h1 : overdueStep now h pr m a = m := by simp [overdueStep, hov]
      rw [h1, List.filter_cons, if_neg (by simp [hov])]

theorem lookupD_foldl_overduePullStep (now h : Int) (u : String) :
    ∀ (prs : List PullRequest) (m : ReviewerMap),
    lookupD (prs.foldl (overduePullStep now h) m) u =
      lookupD m u ++ (prs.map (overdueContrib now h u)).flatten := by
  intro prs
  induction prs with
  | nil => intro m; simp
  | cons pr rest ih =>
    intro m
    rw [List.foldl_cons, ih]
    rw [show overduePullStep now h m pr = pr.assignees.foldl (overdueStep now h pr) m from rfl]
    rw [lookupD_foldl_overdueStep]
    simp [overdueContrib, List.append_assoc]

theorem overdueB_eq_true_iff (now h : Int) (pr : PullRequest) (a : Assignee) :
    overdueB now h pr a = true ↔
      ∃ ts, a.assigned_on_timestamp = some ts ∧
        a.username ≠ pr.author_username ∧ h * 3600 ≤ now - ts := by
  cases hts : a.assigned_on_timestamp with
  | none => simp [overdueB, hts]
  | some ts => simp [overdueB, hts, bne_iff_ne]

theorem mem_overdueContrib (now h : Int) (u : String) (pr pr' : PullRequest) :
    pr ∈ overdueContrib now h u pr' ↔
      (pr' = pr ∧ ∃ a ∈ pr'.assignees, a.username = u ∧ overdueB now h pr' a = true) := by
  unfold overdueContrib
  simp only [List.mem_map, List.mem_filter, Bool.and_eq_true, beq_iff_eq]
  constructor
  · rintro ⟨a, ⟨ha, hu, hov⟩, rfl⟩
    exact ⟨rfl, a, ha, hu, hov⟩
  · rintro ⟨rfl, a, ha, hu, hov⟩
    exact ⟨a, ⟨ha, hu, hov⟩, rfl⟩

/-! ## C1 and C2: the staleness rule -/

theorem lastAssignedFor_eq_none (login : String) (events : List TimelineEvent)
    (h : ∀ e ∈ events, e.event = "assigned" → e.assignee_login ≠ login) :
    lastAssignedFor login events = none := by
  induction events with
  | nil => rfl
  | cons e es ih =>
    rw [lastAssignedFor_cons, ih (fun e' he' => h e' (by simp [he']))]
    by_cases hev : e.event = "assigned"
    · have hne := h e (by simp) hev
      simp [hev, hne]
    · simp [hev]

/-- C1: a (pull request, assignee) pair processed by the staleness filter of
`get_prs_assigned_to_reviewers` puts the pull request under the assignee's
username exactly when the username differs from the author's and the elapsed
time `now - timestamp` is at least `h` hours (`h * 3600` seconds, boundary
inclusive: equality is included, one second less is excluded by the `≤`). -/
theorem claim_C1_staleness_threshold (now h : Int) (prs : List PullRequest)
    (m0 m : ReviewerMap) (u : String) (pr : PullRequest) (hmem : pr ∈ prs)
    (hrun : filterOverduePulls now (some h) prs m0 = .ok m) :
    pr ∈ lookupD m u ↔
      (pr ∈ lookupD m0 u ∨ ∃ a ∈ pr.assignees, a.username = u ∧
        ∃ ts, a.assigned_on_timestamp = some ts ∧
          u ≠ pr.author_username ∧ h * 3600 ≤ now - ts) := by
  have hm : m = prs.foldl (overduePullStep now h) m0 := by
    rw [filterOverduePulls_ok] at hrun
    cases hrun
    rfl
  subst hm
  rw [lookupD_foldl_overduePullStep, List.mem_append]
  simp only [List.mem_flatten, List.mem_map]
  constructor
  · rintro (h0 | ⟨l, ⟨pr', hpr', rfl⟩, hl⟩)
    · exact Or.inl h0
    · rw [mem_overdueContrib] at hl
      obtain ⟨rfl, a, ha, hu, hov⟩ := hl
      refine Or.inr ⟨a, ha, hu, ?_⟩
      rw [overdueB_eq_true_iff] at hov
      obtain ⟨ts, hts, hne, hle⟩ := hov
      exact ⟨ts, hts, hu ▸ hne, hle⟩
  · rintro (h0 | ⟨a, ha, hu, ts, hts, hne, hle⟩)
    · exact Or.inl h0
    · refine Or.inr ⟨overdueContrib now h u pr, ⟨pr, hmem, rfl⟩, ?_⟩
      rw [mem_overdueContrib]
      refine ⟨rfl, a, ha, hu, ?_⟩
      rw [overdueB_eq_true_iff]
      exact ⟨ts, hts, by rw [hu]; exact hne, hle⟩

theorem claim_C1_witness : prW ∈ lookupD [("reviewerName1", [prW])] "reviewerName1" :=
  (claim_C1_staleness_threshold 72000 20 [prW] [] [("reviewerName1", [prW])]
      "reviewerName1" prW (by decide) rfl).mpr
    (Or.inr ⟨aW, by decide, rfl, 0, rfl, by decide, by decide⟩)

/-- C2: an assignee listed on the pull request whose login is matched by no
"assigned" timeline event keeps no assignment timestamp in the built domain
object, and the staleness filter never adds that pull request under the
assignee's username: the reviewer map is unchanged at that key. -/
theorem claim_C2_unmatched_assignee_excluded (org repo : String)
    (timelinePages : Int → Nat → List TimelineEvent) (fuel : Nat)
    (pr_dict : RawPullRequest) (login : String) (P : PullRequest)
    (hnone : ∀ a ∈ pr_dict.assignees, a.login = login → a.created_at = none)
    (hnomatch : ∀ e ∈ (fetchPagesT (timelinePages pr_dict.number) fuel 1).1,
      e.event = "assigned" → e.assignee_login ≠ login)
    (hget : (get_pull_request_object_from_dict org repo timelinePages fuel pr_dict).2 = .ok P)
    (now h : Int) (m0 m : ReviewerMap)
    (hrun : filterOverduePulls now (some h) [P] m0 = .ok m) :
    (∀ A ∈ P.assignees, A.username = login → A.assigned_on_timestamp = none) ∧
    lookupD m login = lookupD m0 login := by
  have hP : P = PullRequest.from_github_response
      { pr_dict with assignees := (applyTimelineEvents pr_dict.assignees
          (fetchPagesT (timelinePages pr_dict.number) fuel 1).1).1 } := by
    simp only [get_pull_request_object_from_dict] at hget
    split at hget
    · simp only [Except.ok.injEq] at hget
      exact hget.symm
    · simp at hget
  have hkey : ∀ A ∈ P.assignees, A.username = login → A.assigned_on_timestamp = none := by
    intro A hA hAu
    rw [hP] at hA
    simp only [PullRequest.from_github_response, List.mem_map] at hA
    obtain ⟨ra, hra, rfl⟩ := hA
    simp only at hAu
    rw [applyTimelineEvents_fst] at hra
    simp only [List.mem_map] at hra
    obtain ⟨a0, ha0, rfl⟩ := hra
    cases hl : lastAssignedFor a0.login
        (fetchPagesT (timelinePages pr_dict.number) fuel 1).1 with
    | none =>
      rw [hl] at hAu
      simp only at hAu ⊢
      exact hnone a0 ha0 hAu
    | some e =>
      rw [hl] at hAu
      simp only at hAu
      have : lastAssignedFor a0.login
          (fetchPagesT (timelinePages pr_dict.number) fuel 1).1 = none := by
        rw [hAu]
        exact lastAssignedFor_eq_none login _ hnomatch
      rw [this] at hl
      exact absurd hl (by simp)
  refine ⟨hkey, ?_⟩
  have hm : m = [P].foldl (overduePullStep now h) m0 := by
    rw [filterOverduePulls_ok] at hrun
    cases hrun
    rfl
  subst hm
  rw [lookupD_foldl_overduePullStep]
  have hcontrib : overdueContrib now h login P = [] := by
    unfold overdueContrib
    have hfil : P.assignees.filter
        (fun a => a.username == login && overdueB now h P a) = [] := by
      rw [List.filter_eq_nil_iff]
      intro a ha
      by_cases hun : a.username = login
      · have hts := hkey a ha hun
        simp [overdueB, hts]
      · simp [hun]
    rw [hfil]
    rfl
  simp [hcontrib]

theorem claim_C2_witness :
    (∀ A ∈ prW2.assignees, A.username = "reviewerName2" →
      A.assigned_on_timestamp = none) ∧
    lookupD [("reviewerName1", [prW2])] "reviewerName2" = lookupD [] "reviewerName2" :=
  claim_C2_unmatched_assignee_excluded "orgName" "repo" timelineW 2 rawPrW
    "reviewerName2" prW2 (by decide) (by decide) rfl 100000 20 []
    [("reviewerName1", [prW2])] rfl

theorem claim_C4_witness :
    (get_pull_request_object_from_dict "orgName" "repo" (fun _ _ => []) 1
      { html_url := "https://githuburl.pull/123", number := 123, title := "PR title 1",
        user_login := "authorName",
        assignees := [{ login := "reviewerName1", created_at := none }] }).2 =
      .error (.nameError "updated_pr_dict") :=
  claim_C4_nameerror_without_assigned_event "orgName" "repo" (fun _ _ => []) 1 _ (by decide)

/-! ## C10: the notification renderer -/

theorem foldl_prLines (now : Int) (username : String) :
    ∀ (prs : List PullRequest) (acc : List String),
    prs.foldl (fun acc pull_request =>
      match pull_request.get_assignee username with
      | some assignee => acc ++ [prLine now pull_request assignee]
      | none => acc) acc =
    acc ++ prs.filterMap (fun pr => (pr.get_assignee username).map (prLine now pr)) := by
  intro prs
  induction prs with
  | nil => intro acc; simp
  | cons pr rest ih =>
    intro acc
    simp only [List.foldl_cons]
    rw [ih]
    cases hga : pr.get_assignee username with
    | none => simp [List.filterMap_cons, hga]
    | some a => simp [List.filterMap_cons, hga]

theorem dropSpaces_cons_of_ne (c : Char) (l : List Char) (hc : (c == ' ') = false) :
    dropSpaces (c :: l) = c :: l := by
  simp [dropSpaces, hc]

theorem dropSpaces_replicate (n : Nat) (l : List Char) :
    dropSpaces (List.replicate n ' ' ++ l) = dropSpaces l := by
  induction n with
  | zero => simp
  | succ k ih => simp [List.replicate_succ, dropSpaces, ih]

theorem matchTokenTail_token (c0 : Char) (nm : List Char) (hc0 : (c0 == ' ') = false)
    (n1 n2 : Nat) (s : List Char) :
    matchTokenTail (c0 :: nm) (List.replicate n1 ' ' ++ ((c0 :: nm) ++
      (List.replicate n2 ' ' ++ ('\x7d' :: '\x7d' :: s)))) = some s := by
  unfold matchTokenTail
  rw [dropSpaces_replicate, List.cons_append, dropSpaces_cons_of_ne _ _ hc0,
    ← List.cons_append, List.take_left, if_pos rfl, List.drop_left,
    dropSpaces_replicate, dropSpaces_cons_of_ne _ _ (by rfl)]
  rfl

theorem matchToken_token (c0 : Char) (nm : List Char) (hc0 : (c0 == ' ') = false)
    (n1 n2 : Nat) (s : List Char) :
    matchToken (c0 :: nm) ('\x7b' :: '\x7b' :: (List.replicate n1 ' ' ++ ((c0 :: nm) ++
      (List.replicate n2 ' ' ++ ('\x7d' :: '\x7d' :: s))))) = some s :=
  matchTokenTail_token c0 nm hc0 n1 n2 s

theorem replaceTokenAux_cons_some (name repl : List Char) (c : Char) (cs rest : List Char)
    (hm : matchToken name (c :: cs) = some rest) :
    replaceTokenAux name repl (c :: cs) = repl ++ replaceTokenAux name repl rest := by
  rw [replaceTokenAux]
  split
  · rename_i r heq
    rw [hm] at heq
    cases heq
    rfl
  · rename_i heq
    rw [hm] at heq
    cases heq

theorem replaceTokenAux_cons_none (name repl : List Char) (c : Char) (cs : List Char)
    (hm : matchToken name (c :: cs) = none) :
    replaceTokenAux name repl (c :: cs) = c :: replaceTokenAux name repl cs := by
  rw [replaceTokenAux]
  split
  · rename_i r heq
    rw [hm] at heq
    cases heq
  · rfl

theorem replaceTokenAux_token_step (c0 : Char) (nm repl : List Char)
    (hc0 : (c0 == ' ') = false) (n1 n2 : Nat) (s : List Char) :
    replaceTokenAux (c0 :: nm) repl ('\x7b' :: '\x7b' :: (List.replicate n1 ' ' ++ ((c0 :: nm) ++
      (List.replicate n2 ' ' ++ ('\x7d' :: '\x7d' :: s))))) =
      repl ++ replaceTokenAux (c0 :: nm) repl s :=
  replaceTokenAux_cons_some _ _ _ _ s (matchToken_token c0 nm hc0 n1 n2 s)

theorem replaceToken_token_step (name repl s : String) (c0 : Char) (nm : List Char)
    (hname : name.data = c0 :: nm) (hc0 : (c0 == ' ') = false) (n1 n2 : Nat) :
    replaceToken name repl (tokenStr name n1 n2 ++ s) =
      repl ++ replaceToken name repl s := by
  refine String.ext ?_
  show replaceTokenAux name.data repl.data (tokenStr name n1 n2 ++ s).data =
    repl.data ++ replaceTokenAux name.data repl.data s.data
  have hdata : (tokenStr name n1 n2 ++ s).data =
      '\x7b' :: '\x7b' :: (List.replicate n1 ' ' ++ ((c0 :: nm) ++
        (List.replicate n2 ' ' ++ ('\x7d' :: '\x7d' :: s.data)))) := by
    unfold tokenStr mkSpaces
    simp [String.data_append, hname, List.append_assoc]
  rw [hdata, hname]
  exact replaceTokenAux_token_step c0 nm repl.data hc0 n1 n2 s.data

/-- C10: `generate_message` renders each overdue pull request for which the
reviewer is a listed assignee as one markdown-link line whose waiting-time
phrase is recomputed from the render-time instant `now`, joins the lines with a
single newline and no trailing separator (`String.intercalate`), matches each
placeholder token permissively (any number of spaces inside the markers, shown
by the universally quantified `n1 n2`), and substitutes literally: the
replacement `repl` is emitted as-is and scanning continues after the token, so
the substituted text is never re-expanded. -/
theorem claim_C10_renderer (now : Int) (username : String)
    (pull_requests : List PullRequest) (t : String) :
    generate_message now username pull_requests TEMPLATE_PATH (some t) =
      .ok (replaceToken "pr_list"
        (String.intercalate "\n" (pull_requests.filterMap
          (fun pr => (pr.get_assignee username).map (prLine now pr))))
        (replaceToken "username" username t)) ∧
    (∀ (repl s : String) (n1 n2 : Nat),
      replaceToken "username" repl (tokenStr "username" n1 n2 ++ s) =
        repl ++ replaceToken "username" repl s) ∧
    (∀ (repl s : String) (n1 n2 : Nat),
      replaceToken "pr_list" repl (tokenStr "pr_list" n1 n2 ++ s) =
        repl ++ replaceToken "pr_list" repl s) := by
  refine ⟨?_, ?_, ?_⟩
  · simp only [generate_message]
    rw [foldl_prLines]
    simp
  · intro repl s n1 n2
    exact replaceToken_token_step "username" repl s 'u' "sername".data rfl rfl n1 n2
  · intro repl s n1 n2
    exact replaceToken_token_step "pr_list" repl s 'p' "r_list".data rfl rfl n1 n2

/-! ## C9: category resolution -/

/-- C9: when no discussion category carries the configured name,
`_get_category_id` raises a fatal error naming that category; when one does,
the id returned is the first matching category's, in list order. -/
theorem claim_C9_category_resolution (org repo : String)
    (categories : List (String × String)) (cat : String) :
    ((∀ c ∈ categories, c.2 ≠ cat) →
      (_get_category_id org repo categories (some cat)).2 =
        .error (.baseException (cat ++ " category is missing in GitHub Discussion."))) ∧
    (∀ (pre suf : List (String × String)) (id : String),
      categories = pre ++ (id, cat) :: suf → (∀ c ∈ pre, c.2 ≠ cat) →
      (_get_category_id org repo categories (some cat)).2 = .ok id) := by
  constructor
  · intro hno
    have hf : categories.find? (fun c => some c.2 == some cat) = none := by
      rw [List.find?_eq_none]
      intro c hc
      simp [hno c hc]
    simp only [_get_category_id]
    rw [hf]
    rfl
  · intro pre suf id hcat hpre
    subst hcat
    have hf : ∀ (pre' : List (String × String)), (∀ c ∈ pre', c.2 ≠ cat) →
        (pre' ++ (id, cat) :: suf).find? (fun c => some c.2 == some cat) =
          some (id, cat) := by
      intro pre'
      induction pre' with
      | nil =>
        intro _
        exact List.find?_cons_of_pos _ (by simp)
      | cons c rest ih =>
        intro hp
        rw [List.cons_append, List.find?_cons_of_neg _ (by simp [hp c (by simp)]),
          ih (fun c' hc' => hp c' (by simp [hc']))]
    simp only [_get_category_id]
    rw [hf pre hpre]

/-! ## Traces of the workflow components -/

theorem get_pull_request_object_from_dict_fst (org repo : String)
    (tp : Int → Nat → List TimelineEvent) (fuel : Nat) (d : RawPullRequest) :
    (get_pull_request_object_from_dict org repo tp fuel d).1 =
      (fetchPagesT (tp d.number) fuel 1).2.map
        (fun p => ApiCall.fetchTimeline org repo d.number p.1) := by
  simp only [get_pull_request_object_from_dict]
  split <;> rfl

theorem buildPullRequests_calls (org repo : String) (tp : Int → Nat → List TimelineEvent)
    (fuel : Nat) :
    ∀ (ds : List RawPullRequest) (call : ApiCall),
    call ∈ (buildPullRequests org repo tp fuel ds).1 →
    ∃ num p, call = ApiCall.fetchTimeline org repo num p := by
  intro ds
  induction ds with
  | nil =>
    intro call hc
    simp [buildPullRequests] at hc
  | cons d rest ih =>
    intro call hc
    simp only [buildPullRequests] at hc
    split at hc
    · rename_i c e heq
      have h1 : c = (get_pull_request_object_from_dict org repo tp fuel d).1 := by
        rw [heq]
      rw [h1, get_pull_request_object_from_dict_fst] at hc
      simp only [List.mem_map] at hc
      obtain ⟨p, _, rfl⟩ := hc
      exact ⟨d.number, p.1, rfl⟩
    · rename_i c pr heq
      split at hc
      · rename_i c' e' heq'
        rw [List.mem_append] at hc
        rcases hc with hc | hc
        · have h1 : c = (get_pull_request_object_from_dict org repo tp fuel d).1 := by
            rw [heq]
          rw [h1, get_pull_request_object_from_dict_fst] at hc
          simp only [List.mem_map] at hc
          obtain ⟨p, _, rfl⟩ := hc
          exact ⟨d.number, p.1, rfl⟩
        · have h1 : c' = (buildPullRequests org repo tp fuel rest).1 := by
            rw [heq']
          rw [h1] at hc
          exact ih call hc
      · rename_i c' prs heq'
        rw [List.mem_append] at hc
        rcases hc with hc | hc
        · have h1 : c = (get_pull_request_object_from_dict org repo tp fuel d).1 := by
            rw [heq]
          rw [h1, get_pull_request_object_from_dict_fst] at hc
          simp only [List.mem_map] at hc
          obtain ⟨p, _, rfl⟩ := hc
          exact ⟨d.number, p.1, rfl⟩
        · have h1 : c' = (buildPullRequests org repo tp fuel rest).1 := by
            rw [heq']
          rw [h1] at hc
          exact ih call hc

theorem get_prs_calls (now : Int) (org repo : String) (pp : Nat → List RawPullRequest)
    (tp : Int → Nat → List TimelineEvent) (fuel : Nat) (mwh : Option Int) (call : ApiCall)
    (hc : call ∈ (get_prs_assigned_to_reviewers now org repo pp tp fuel mwh).1) :
    (∃ p, call = ApiCall.fetchPulls org repo p) ∨
    (∃ num p, call = ApiCall.fetchTimeline org repo num p) := by
  simp only [get_prs_assigned_to_reviewers] at hc
  have hmain : ∀ (tc : List ApiCall),
      call ∈ (fetchPagesT pp fuel 1).2.map (fun p => ApiCall.fetchPulls org repo p.1) ++ tc →
      tc = (buildPullRequests org repo tp fuel (fetchPagesT pp fuel 1).1).1 →
      (∃ p, call = ApiCall.fetchPulls org repo p) ∨
      (∃ num p, call = ApiCall.fetchTimeline org repo num p) := by
    intro tc hmem htc
    rw [List.mem_append] at hmem
    rcases hmem with hmem | hmem
    · simp only [List.mem_map] at hmem
      obtain ⟨p, _, rfl⟩ := hmem
      exact Or.inl ⟨p.1, rfl⟩
    · rw [htc] at hmem
      exact Or.inr (buildPullRequests_calls org repo tp fuel _ call hmem)
  split at hc
  · rename_i tcalls e heq
    exact hmain tcalls hc (by rw [heq])
  · rename_i tcalls pulls heq
    split at hc
    · rename_i e
      exact hmain tcalls hc (by rw [heq])
    · rename_i m
      exact hmain tcalls hc (by rw [heq])

theorem _get_category_id_fst (org repo : String) (cats : List (String × String))
    (cat : Option String) :
    (_get_category_id org repo cats cat).1 = [ApiCall.getCategoryId org repo] := by
  simp only [_get_category_id]
  split <;> rfl

theorem _get_repository_id_fst (org repo : String) (repoId : Option String) :
    (_get_repository_id org repo repoId).1 = [ApiCall.getRepositoryId org repo] := by
  simp only [_get_repository_id]
  split <;> rfl

theorem _get_discussion_ids_calls (org repo : String) (cats : List (String × String))
    (ds : List (Option String)) (cat : Option String) (call : ApiCall)
    (hc : call ∈ (_get_discussion_ids org repo cats ds cat).1) :
    call = ApiCall.getCategoryId org repo ∨ call = ApiCall.getDiscussionIds org repo := by
  simp only [_get_discussion_ids] at hc
  split at hc
  · rename_i c e heq
    have h1 : c = (_get_category_id org repo cats cat).1 := by rw [heq]
    rw [h1, _get_category_id_fst] at hc
    simp at hc
    exact Or.inl hc
  · rename_i c x heq
    rw [List.mem_append] at hc
    rcases hc with hc | hc
    · have h1 : c = (_get_category_id org repo cats cat).1 := by rw [heq]
      rw [h1, _get_category_id_fst] at hc
      simp at hc
      exact Or.inl hc
    · simp at hc
      exact Or.inr hc

theorem delete_discussions_calls (org repo : String) (cats : List (String × String))
    (ds : List (Option String)) (cat : Option String) (call : ApiCall)
    (hc : call ∈ (delete_discussions org repo cats ds cat).1) :
    call = ApiCall.getCategoryId org repo ∨ call = ApiCall.getDiscussionIds org repo ∨
    ∃ id, call = ApiCall.deleteDiscussion id := by
  simp only [delete_discussions] at hc
  split at hc
  · rename_i c e heq
    have h1 : c = (_get_discussion_ids org repo cats ds cat).1 := by rw [heq]
    rw [h1] at hc
    rcases _get_discussion_ids_calls org repo cats ds cat call hc with h | h
    · exact Or.inl h
    · exact Or.inr (Or.inl h)
  · rename_i c ids heq
    rw [List.mem_append] at hc
    rcases hc with hc | hc
    · have h1 : c = (_get_discussion_ids org repo cats ds cat).1 := by rw [heq]
      rw [h1] at hc
      rcases _get_discussion_ids_calls org repo cats ds cat call hc with h | h
      · exact Or.inl h
      · exact Or.inr (Or.inl h)
    · simp only [List.mem_map] at hc
      obtain ⟨id, _, rfl⟩ := hc
      exact Or.inr (Or.inr ⟨id, rfl⟩)

theorem create_discussion_calls (org repo : String) (cats : List (String × String))
    (repoId : Option String) (cat : Option String) (title body : String) (call : ApiCall)
    (hc : call ∈ (create_discussion org repo cats repoId cat title body).1) :
    call = ApiCall.getCategoryId org repo ∨ call = ApiCall.getRepositoryId org repo ∨
    ∃ c t b, call = ApiCall.createDiscussion org repo c t b := by
  simp only [create_discussion] at hc
  split at hc
  · rename_i c e heq
    have h1 : c = (_get_category_id org repo cats cat).1 := by rw [heq]
    rw [h1, _get_category_id_fst] at hc
    simp at hc
    exact Or.inl hc
  · rename_i c x heq
    split at hc
    · rename_i c2 e2 heq2
      rw [List.mem_append] at hc
      rcases hc with hc | hc
      · have h1 : c = (_get_category_id org repo cats cat).1 := by rw [heq]
        rw [h1, _get_category_id_fst] at hc
        simp at hc
        exact Or.inl hc
      · have h2 : c2 = (_get_repository_id org repo repoId).1 := by rw [heq2]
        rw [h2, _get_repository_id_fst] at hc
        simp at hc
        exact Or.inr (Or.inl hc)
    · rename_i c2 rid heq2
      rw [List.mem_append, List.mem_append] at hc
      rcases hc with (hc | hc) | hc
      · have h1 : c = (_get_category_id org repo cats cat).1 := by rw [heq]
        rw [h1, _get_category_id_fst] at hc
        simp at hc
        exact Or.inl hc
      · have h2 : c2 = (_get_repository_id org repo repoId).1 := by rw [heq2]
        rw [h2, _get_repository_id_fst] at hc
        simp at hc
        exact Or.inr (Or.inl hc)
      · simp at hc
        exact Or.inr (Or.inr ⟨optStr cat, title, body, hc⟩)

theorem createLoop_calls (w : World) (cat : Option String) :
    ∀ (items : List (String × List PullRequest)) (call : ApiCall),
    call ∈ (createLoop w cat items).1 →
    call = ApiCall.getCategoryId "SD-13" "test-pending-review-notifier" ∨
    call = ApiCall.getRepositoryId "SD-13" "test-pending-review-notifier" ∨
    ∃ c t b, call = ApiCall.createDiscussion "SD-13" "test-pending-review-notifier" c t b := by
  intro items
  induction items with
  | nil =>
    intro call hc
    simp [createLoop] at hc
  | cons item rest ih =>
    intro call hc
    obtain ⟨reviewer_name, pr_list⟩ := item
    simp only [createLoop] at hc
    split at hc
    · simp at hc
    · rename_i body hgen
      split at hc
      · rename_i c e heq
        have h1 : c = (create_discussion "SD-13" "test-pending-review-notifier"
            w.categories w.repositoryId cat ("Pending Reviews: @" ++ reviewer_name) body).1 := by
          rw [heq]
        rw [h1] at hc
        exact create_discussion_calls _ _ _ _ _ _ _ _ hc
      · rename_i c x heq
        rw [List.mem_append] at hc
        rcases hc with hc | hc
        · have h1 : c = (create_discussion "SD-13" "test-pending-review-notifier"
              w.categories w.repositoryId cat ("Pending Reviews: @" ++ reviewer_name) body).1 := by
            rw [heq]
          rw [h1] at hc
          exact create_discussion_calls _ _ _ _ _ _ _ _ hc
        · exact ih call hc

/-! ## C6, C7, C8: the main workflow -/

theorem requiredArgMissingError_none (args : ParsedArgs) :
    requiredArgMissingError args = none := rfl

/-- C6 counterexample: with the template file missing and one overdue reviewer,
the run does fail with a fatal error naming the template path, but a discussion
deletion call has already been issued before that failure — refuting the
claim's "no discussion API calls (neither deletion nor creation) are attempted
before this failure". -/
theorem claim_C6_counterexample :
    (main_workflow w6 args6).2 =
      .error (.baseException ("Please add a template file at: " ++ TEMPLATE_PATH)) ∧
    ApiCall.deleteDiscussion "d1" ∈ (main_workflow w6 args6).1 := by
  constructor
  · rfl
  · decide

/-- C6 (amended): if the template file is missing, the run fails with a fatal
error whose message names the template path, and no discussion CREATION is
attempted; but the failure is raised only when the first overdue reviewer's
message is rendered, which is after the pull-request fetch and after the whole
discussion-deletion phase have already run. -/
theorem claim_C6_template_missing_fails_after_deletes (w : World) (args : ParsedArgs)
    (m : ReviewerMap) (c1 c2 : List ApiCall)
    (htok : init_service args.token = .ok ())
    (hprs : get_prs_assigned_to_reviewers w.now "oppia" "oppia" w.pullPages
      w.timelinePages w.fuel args.max_wait_hours = (c1, .ok m))
    (hdel : delete_discussions "SD-13" "test-pending-review-notifier" w.categories
      w.discussions args.category = (c2, .ok ()))
    (hne : m ≠ [])
    (htmpl : w.template = none) :
    (main_workflow w args).2 =
      .error (.baseException ("Please add a template file at: " ++ TEMPLATE_PATH)) ∧
    (main_workflow w args).1 = c1 ++ c2 ∧
    ∀ o r c t b, ApiCall.createDiscussion o r c t b ∉ (main_workflow w args).1 := by
  have hloop : createLoop w args.category m = ([], .error
      (.baseException ("Please add a template file at: " ++ TEMPLATE_PATH))) := by
    cases m with
    | nil => exact absurd rfl hne
    | cons item rest =>
      obtain ⟨reviewer_name, pr_list⟩ := item
      simp only [createLoop, generate_message, htmpl]
  have hmain : main_workflow w args = (c1 ++ c2, .error
      (.baseException ("Please add a template file at: " ++ TEMPLATE_PATH))) := by
    simp only [main_workflow, requiredArgMissingError_none, htok, hprs, hdel, hloop]
    simp
  refine ⟨by rw [hmain], by rw [hmain], ?_⟩
  intro o r c t b hmem
  rw [hmain] at hmem
  simp only [List.mem_append] at hmem
  rcases hmem with hmem | hmem
  · have h1 : c1 = (get_prs_assigned_to_reviewers w.now "oppia" "oppia" w.pullPages
        w.timelinePages w.fuel args.max_wait_hours).1 := by rw [hprs]
    rw [h1] at hmem
    rcases get_prs_calls _ _ _ _ _ _ _ _ hmem with ⟨p, hp⟩ | ⟨num, p, hp⟩ <;> cases hp
  · have h2 : c2 = (delete_discussions "SD-13" "test-pending-review-notifier"
        w.categories w.discussions args.category).1 := by rw [hdel]
    rw [h2] at hmem
    rcases delete_discussions_calls _ _ _ _ _ _ hmem with hp | hp | ⟨id, hp⟩ <;> cases hp

theorem claim_C6_amended_witness :
    (main_workflow w6 args6).2 =
      .error (.baseException ("Please add a template file at: " ++ TEMPLATE_PATH)) ∧
    (main_workflow w6 args6).1 = c1W ++ c2W ∧
    ∀ o r c t b, ApiCall.createDiscussion o r c t b ∉ (main_workflow w6 args6).1 :=
  claim_C6_template_missing_fails_after_deletes w6 args6 m6 c1W c2W rfl rfl rfl
    (by decide) rfl

/-- C7 (code bug): the required-argument check of main.py lines 119-123 iterates
over the argument-NAME strings and tests the loop variable itself against None,
so it can never raise for any parsed arguments; at the concrete failing input
(valid token, but no --category and no --max-wait-hours) the run initialises
the service, performs a network pull-request fetch, and only later dies with
the unrelated error "None category is missing in GitHub Discussion." instead of
the documented "Please provide ... argument." configuration error. -/
theorem claim_C7_required_args_check_dead :
    (∀ args : ParsedArgs, requiredArgMissingError args = none) ∧
    (main_workflow w7 args7).1 =
      [ApiCall.fetchPulls "oppia" "oppia" 1,
       ApiCall.getCategoryId "SD-13" "test-pending-review-notifier"] ∧
    (main_workflow w7 args7).2 =
      .error (.baseException "None category is missing in GitHub Discussion.") :=
  ⟨fun _ => rfl, rfl, rfl⟩

/-- C8: the workflow ignores the --repo argument: whatever the parsed arguments
are, every pull-request or timeline fetch in the trace targets the hard-coded
"oppia"/"oppia", and every discussion-related call targets the hard-coded
"SD-13"/"test-pending-review-notifier" — two different repositories. -/
theorem claim_C8_hardcoded_repositories (w : World) (args : ParsedArgs) (call : ApiCall)
    (hc : call ∈ (main_workflow w args).1) :
    callTargets call = true ∧
      ("oppia", "oppia") ≠ ("SD-13", "test-pending-review-notifier") := by
  refine ⟨?_, by decide⟩
  simp only [main_workflow, requiredArgMissingError_none] at hc
  split at hc
  · simp at hc
  · split at hc
    · rename_i c1 e heq
      have h1 : c1 = (get_prs_assigned_to_reviewers w.now "oppia" "oppia" w.pullPages
          w.timelinePages w.fuel args.max_wait_hours).1 := by rw [heq]
      rw [h1] at hc
      rcases get_prs_calls _ _ _ _ _ _ _ _ hc with ⟨p, rfl⟩ | ⟨num, p, rfl⟩ <;> rfl
    · rename_i c1 m heq
      split at hc
      · rename_i c2 e heq2
        rw [List.mem_append] at hc
        rcases hc with hc | hc
        · have h1 : c1 = (get_prs_assigned_to_reviewers w.now "oppia" "oppia" w.pullPages
              w.timelinePages w.fuel args.max_wait_hours).1 := by rw [heq]
          rw [h1] at hc
          rcases get_prs_calls _ _ _ _ _ _ _ _ hc with ⟨p, rfl⟩ | ⟨num, p, rfl⟩ <;> rfl
        · have h2 : c2 = (delete_discussions "SD-13" "test-pending-review-notifier"
              w.categories w.discussions args.category).1 := by rw [heq2]
          rw [h2] at hc
          rcases delete_discussions_calls _ _ _ _ _ _ hc with rfl | rfl | ⟨id, rfl⟩ <;> rfl
      · rename_i c2 x heq2
        rw [List.mem_append, List.mem_append] at hc
        rcases hc with (hc | hc) | hc
        · have h1 : c1 = (get_prs_assigned_to_reviewers w.now "oppia" "oppia" w.pullPages
              w.timelinePages w.fuel args.max_wait_hours).1 := by rw [heq]
          rw [h1] at hc
          rcases get_prs_calls _ _ _ _ _ _ _ _ hc with ⟨p, rfl⟩ | ⟨num, p, rfl⟩ <;> rfl
        · have h2 : c2 = (delete_discussions "SD-13" "test-pending-review-notifier"
              w.categories w.discussions args.category).1 := by rw [heq2]
          rw [h2] at hc
          rcases delete_discussions_calls _ _ _ _ _ _ hc with rfl | rfl | ⟨id, rfl⟩ <;> rfl
        · rcases createLoop_calls w args.category _ call hc with rfl | rfl | ⟨c, t, b, rfl⟩ <;>
            rfl

theorem claim_C8_witness :
    callTargets (ApiCall.fetchPulls "oppia" "oppia" 1) = true ∧
      ("oppia", "oppia") ≠ ("SD-13", "test-pending-review-notifier") :=
  claim_C8_hardcoded_repositories w7 args7 (ApiCall.fetchPulls "oppia" "oppia" 1) (by decide)
